import Mathlib

/-!
Netscan: address and port range enumeration, probe dispatch.

A shallow embedding of `main.go` of the netscan port scanner.

* Go strings are byte sequences; they are embedded as `List Char` (`Str`).
  Every operation used by the program (splitting on `.`, decimal parsing and
  printing, equality) acts on ASCII bytes only.
* A call that ends the process (`panic`, `os.Exit`) is an explicit `Outcome.fatal`.
* The unbounded `for` loop of `createIP4Table` takes a fuel argument; the result
  `none` means that the fuel ran out.
-/

namespace Netscan

/-- A Go string, as the list of its characters. -/
abbrev Str := List Char

/-- How the process can end before a function returns. -/
inductive Fatal where
  /-- A run-time panic (`panic(err)`). -/
  | panic
  /-- The call `os.Exit(code)`. -/
  | exit (code : Nat)
  deriving DecidableEq, Repr

/-- The outcome of a call: a returned value or the end of the process. -/
inductive Outcome (α : Type) where
  | ok (val : α)
  | fatal (f : Fatal)
  deriving DecidableEq, Repr

/-! ## The library functions used by the address walk -/

/-- The function `strings.Split(s, sep)` for a separator of one byte: the
pieces of `s` between the occurrences of `sep`; `n` occurrences give `n + 1`
pieces, and the empty string gives one empty piece. -/
def Split (sep : Char) : Str → List Str
  | [] => [[]]
  | c :: cs =>
    if c = sep then [] :: Split sep cs
    else
      match Split sep cs with
      | [] => [[c]]
      | piece :: pieces => (c :: piece) :: pieces

/-- The function `strings.Join(elems, sep)` for a separator of one byte. -/
def Join (sep : Char) : List Str → Str
  | [] => []
  | [e] => e
  | e :: es => e ++ sep :: Join sep es

/-- The value of a decimal digit, `none` for any other byte. -/
def digitVal (c : Char) : Option Nat :=
  if 48 ≤ c.toNat ∧ c.toNat ≤ 57 then some (c.toNat - 48) else none

/-- The value of a non-empty string of decimal digits read left to right from
the accumulator `acc`, `none` when a byte is not a digit. -/
def parseDigits : Str → Nat → Option Nat
  | [], acc => some acc
  | c :: cs, acc =>
    match digitVal c with
    | none => none
    | some d => parseDigits cs (acc * 10 + d)

/-- The unsigned part of `strconv.Atoi`: at least one digit, digits only. -/
def parseUnsigned (s : Str) : Option Nat :=
  match s with
  | [] => none
  | _ :: _ => parseDigits s 0

/-- The function `strconv.Atoi` on a 64-bit platform: an optional sign, then
one or more decimal digits, and a value that fits `int`. `none` stands for a
non-nil error (syntax or range). -/
def Atoi (s : Str) : Option Int :=
  let signed : Bool × Str :=
    match s with
    | '-' :: t => (true, t)
    | '+' :: t => (false, t)
    | _ => (false, s)
  match parseUnsigned signed.2 with
  | none => none
  | some n =>
    let v : Int := if signed.1 then -(n : Int) else (n : Int)
    if -(2 : Int) ^ 63 ≤ v ∧ v < (2 : Int) ^ 63 then some v else none

/-- The function `strconv.Itoa`: the decimal digits, after `-` for a negative
value. -/
def Itoa (v : Int) : Str :=
  match v with
  | Int.ofNat n => Nat.toDigits 10 n
  | Int.negSucc n => '-' :: Nat.toDigits 10 (n + 1)

/-! ## nextIP4 -/

/-- The loop of `nextIP4`. The first argument holds the fields `ip[0..i]` in
reverse order (its head is `ip[i]`), the second the fields `ip[i+1..]` as
already rewritten.
A field that does not parse panics; a field of value 255 or more becomes `0`
and the loop moves left; another field is incremented and the joined fields are
returned. When the fields run out the result is the empty string. -/
def nextIP4Loop : List Str → List Str → Outcome Str
  | [], _ => Outcome.ok []
  | field :: left, done =>
    match Atoi field with
    | none => Outcome.fatal Fatal.panic
    | some v =>
      if v ≥ 255 then nextIP4Loop left (['0'] :: done)
      else Outcome.ok (Join '.' (left.reverse ++ Itoa (v + 1) :: done))

/-- The function `nextIP4`: the fields of `ip_string` between dots, walked
from the last to the first. -/
def nextIP4 (ip_string : Str) : Outcome Str :=
  nextIP4Loop (Split '.' ip_string).reverse []

/-! ## net.ParseIP, IP.To4, bytes.Compare -/

/-- A Go byte slice (`net.IP`); the nil slice is the empty list. -/
abbrev IP := List Nat

/-- One field of a dotted-decimal address as `net.ParseIP` reads it (Go 1.17
and later): one to three decimal digits, no leading zero before another digit,
value at most 255. -/
def parseOctet (field : Str) : Option Nat :=
  match field with
  | [] => none
  | c :: cs =>
    if c = '0' ∧ cs ≠ [] then none
    else
      match parseDigits (c :: cs) 0 with
      | none => none
      | some n => if n ≤ 255 then some n else none

/-- The 16-byte form `net.IPv4(a, b, c, d)`: the IPv4-in-IPv6 prefix and the
four bytes. -/
def IPv4 (a b c d : Nat) : IP :=
  [0, 0, 0, 0, 0, 0, 0, 0, 0, 0, 255, 255, a, b, c, d]

/-- The dotted-decimal branch of `net.ParseIP`: exactly four fields, each
accepted by `parseOctet`; nil otherwise. -/
def parseIPv4 (s : Str) : IP :=
  match (Split '.' s).map parseOctet with
  | [some a, some b, some c, some d] => IPv4 a b c d
  | _ => []

/-- The first byte of `s` that is a dot or a colon, which selects the branch of
`net.ParseIP`. -/
def firstSeparator : Str → Option Char
  | [] => none
  | c :: cs => if c = '.' ∨ c = ':' then some c else firstSeparator cs

/-- The function `net.ParseIP`: a string whose first separator is a dot is read
as dotted decimal, one whose first separator is a colon is handed to the IPv6
reader `parseIPv6` (a parameter of the model), and a string with neither is
nil. -/
def ParseIP (parseIPv6 : Str → IP) (s : Str) : IP :=
  match firstSeparator s with
  | some '.' => parseIPv4 s
  | some _ => parseIPv6 s
  | none => []

/-- The method `IP.To4`: a 4-byte slice as it is, the last four bytes of a
16-byte slice with the IPv4-in-IPv6 prefix, nil (`none`) otherwise. -/
def To4 (ip : IP) : Option IP :=
  match ip with
  | [a, b, c, d] => some [a, b, c, d]
  | [0, 0, 0, 0, 0, 0, 0, 0, 0, 0, 255, 255, a, b, c, d] => some [a, b, c, d]
  | _ => none

/-- The function `bytes.Compare`: lexicographic order, `-1`, `0` or `1`. -/
def bytesCompare : IP → IP → Int
  | [], [] => 0
  | [], _ :: _ => -1
  | _ :: _, [] => 1
  | x :: xs, y :: ys =>
    if x < y then -1 else if y < x then 1 else bytesCompare xs ys

/-! ## isIP4Range and createIP4Table -/

/-- The function `isIP4Range`: the process exits with status 1 when one of the
three strings is not an IPv4 address; otherwise the result tells whether the
bytes of `ip_string` lie between those of `ip_start` and `ip_end`. -/
def isIP4Range (parseIPv6 : Str → IP) (ip_string ip_start ip_end : Str) : Outcome Bool :=
  let ip := ParseIP parseIPv6 ip_string
  if To4 ip = none then Outcome.fatal (Fatal.exit 1)
  else
    let start := ParseIP parseIPv6 ip_start
    if To4 start = none then Outcome.fatal (Fatal.exit 1)
    else
      let endIP := ParseIP parseIPv6 ip_end
      if To4 endIP = none then Outcome.fatal (Fatal.exit 1)
      else if bytesCompare ip start ≥ 0 ∧ bytesCompare ip endIP ≤ 0 then Outcome.ok true
      else Outcome.ok false

/-- The loop of `createIP4Table`, one iteration per unit of fuel: append `ip`
to the table, step to its successor, and return the table when the successor is
the empty string or lies outside the range. -/
def createIP4TableLoop (parseIPv6 : Str → IP) (ip_start ip_end : Str) :
    Nat → List Str → Str → Option (Outcome (List Str))
  | 0, _, _ => none
  | fuel + 1, table, ip =>
    match nextIP4 ip with
    | Outcome.fatal f => some (Outcome.fatal f)
    | Outcome.ok next =>
      if next = [] then some (Outcome.ok (table ++ [ip]))
      else
        match isIP4Range parseIPv6 next ip_start ip_end with
        | Outcome.fatal f => some (Outcome.fatal f)
        | Outcome.ok false => some (Outcome.ok (table ++ [ip]))
        | Outcome.ok true => createIP4TableLoop parseIPv6 ip_start ip_end fuel (table ++ [ip]) next

/-- The function `createIP4Table`: the single entry `ip_start` when both
strings are equal, the walk from `ip_start` otherwise. -/
def createIP4Table (parseIPv6 : Str → IP) (fuel : Nat) (ip_start ip_end : Str) :
    Option (Outcome (List Str)) :=
  if ip_start = ip_end then some (Outcome.ok [ip_start])
  else createIP4TableLoop parseIPv6 ip_start ip_end fuel [] ip_start

/-! ## The port range of main -/

/-- The function `usage(msg, exit)`: it prints a text and, when `exit` is
set, ends the process through `os.Exit(0)`. The printed text is not part of the
model. -/
def usage (_msg : Str) (exit : Bool) : Outcome Unit :=
  if exit then Outcome.fatal (Fatal.exit 0) else Outcome.ok ()

/-- The first clamp of `main`: `if portStart < 1 { portStart = 1 }`. -/
def clampPortStart (portStart : Int) : Int :=
  if portStart < 1 then 1 else portStart

/-- The second clamp of `main`:
`if portEnd < 1 || portEnd > 65536 { portEnd = 65536 }`. -/
def clampPortEnd (portEnd : Int) : Int :=
  if portEnd < 1 ∨ portEnd > 65536 then 65536 else portEnd

/-- The condition of the second rejection of `main`:
`portStart < 1 || portStart > 65536 || portEnd < 1 || portEnd > 65536`. -/
def portOutOfBounds (portStart portEnd : Int) : Prop :=
  portStart < 1 ∨ portStart > 65536 ∨ portEnd < 1 ∨ portEnd > 65536

instance portOutOfBounds.decidable (portStart portEnd : Int) :
    Decidable (portOutOfBounds portStart portEnd) := by
  unfold portOutOfBounds; infer_instance

/-- The port clamping and validation of `main`, from the two integers left by
the argument parsing (both 0 when no port argument is given) to the range
handed to the scan, or to the exit made by `usage`. -/
def portRange (portStart portEnd : Int) : Outcome (Int × Int) :=
  let portStart := clampPortStart portStart
  let portEnd := clampPortEnd portEnd
  match (if portEnd < portStart then
      usage "Port End must be greater than Port Start".data true else Outcome.ok ()) with
  | Outcome.fatal f => Outcome.fatal f
  | Outcome.ok () =>
    match (if portOutOfBounds portStart portEnd then
        usage "Port range must be between 1 and 65536".data true else Outcome.ok ()) with
    | Outcome.fatal f => Outcome.fatal f
    | Outcome.ok () => Outcome.ok (portStart, portEnd)

/-! ## The dispatch loop -/

/-- One probe: the goroutine started by `Scanner.Start` for the scanner of
`host` and the port `port`. -/
structure Probe where
  host : Str
  port : Int
  deriving DecidableEq, Repr

/-- The loop of `Scanner.Start` from the current value of `port`: the probes
it dispatches, in the order of dispatch. The counter is an unbounded integer;
it agrees with the 64-bit `int` of the program for every `portEnds` below
2^63 - 1, which the clamping of `main` guarantees. -/
def StartLoop (host : Str) (portEnds : Int) (port : Int) : List Probe :=
  if port ≤ portEnds then Probe.mk host port :: StartLoop host portEnds (port + 1) else []
termination_by (portEnds + 1 - port).toNat
decreasing_by omega

/-- The method `Scanner.Start` of the scanner made by `New(host)`: the probes
it dispatches, in the order of dispatch. -/
def Start (host : Str) (portStart portEnds : Int) : List Probe :=
  StartLoop host portEnds portStart

/-- The loop of `main` over the address table: one scanner per address, each
started on the port range; the probes in the order of dispatch. -/
def dispatchLoop : List Str → Int → Int → List Probe
  | [], _, _ => []
  | ip :: rest, portStart, portEnd =>
    Start ip portStart portEnd ++ dispatchLoop rest portStart portEnd

/-- The body of `main` after the argument parsing: the port validation, the
option loop (its outcome `options` is a parameter: it either passes or exits),
the address table and the dispatch loop. The result is the list of the probes
dispatched, or the way the process ended before the first dispatch. -/
def scanSession (parseIPv6 : Str → IP) (fuel : Nat) (ip_start ip_end : Str)
    (portStart portEnd : Int) (options : Outcome Unit) : Option (Outcome (List Probe)) :=
  match portRange portStart portEnd with
  | Outcome.fatal f => some (Outcome.fatal f)
  | Outcome.ok (s, e) =>
    match options with
    | Outcome.fatal f => some (Outcome.fatal f)
    | Outcome.ok () =>
      match createIP4Table parseIPv6 fuel ip_start ip_end with
      | none => none
      | some (Outcome.fatal f) => some (Outcome.fatal f)
      | some (Outcome.ok table) => some (Outcome.ok (dispatchLoop table s e))

/-! ## The semaphore -/

/-- A state of the scan. The dispatch loop sends on the channel `sem` before
it starts the goroutine of a probe, and the goroutine receives from `sem` when
its probe is over. -/
structure ScanState where
  /-- The probes that the dispatch loop has still to dispatch, in order. -/
  pending : List Probe
  /-- The probe for which the loop has sent on `sem` and not yet started the
  goroutine. -/
  holding : Option Probe
  /-- The probes whose goroutine runs: started, and not yet received from
  `sem`. -/
  inflight : List Probe
  /-- The number of values in the channel, `len(sem)`. -/
  sem : Nat
  /-- The probes whose goroutine was started, in the order of the starts. -/
  launched : List Probe
  deriving DecidableEq, Repr

/-- The state in which the dispatch loop begins: the channel is empty. -/
def ScanState.init (probes : List Probe) : ScanState :=
  { pending := probes, holding := none, inflight := [], sem := 0, launched := [] }

/-- One atomic step of the scan with the channel capacity `threads`, the
size given to `make(chan int, threads)`. The goroutines are interleaved: each
step is one of the three channel or goroutine operations of `Scanner.Start`. -/
inductive Step (threads : Nat) : ScanState → ScanState → Prop where
  /-- The send `sem <- 1`: possible only below the capacity. -/
  | acquire (p : Probe) (rest : List Probe) (s : ScanState) :
      s.pending = p :: rest → s.holding = none → s.sem < threads →
      Step threads s { s with pending := rest, holding := some p, sem := s.sem + 1 }
  /-- The statement `go func(p int) {...}(port)`. -/
  | launch (p : Probe) (s : ScanState) :
      s.holding = some p →
      Step threads s
        { s with holding := none, inflight := p :: s.inflight, launched := s.launched ++ [p] }
  /-- The receive `<-sem` at the end of the goroutine of `p`. -/
  | release (p : Probe) (s : ScanState) :
      p ∈ s.inflight → 0 < s.sem →
      Step threads s { s with inflight := s.inflight.erase p, sem := s.sem - 1 }

/-- The states that the scan of `probes` can reach with the capacity
`threads`. -/
inductive Reachable (threads : Nat) (probes : List Probe) : ScanState → Prop where
  | init : Reachable threads probes (ScanState.init probes)
  | step (s t : ScanState) : Reachable threads probes s → Step threads s t →
      Reachable threads probes t

/-! ## Canonical dotted-decimal literals -/

/-- The canonical dotted-decimal literal of the four octets `a.b.c.d`. -/
def dotted (a b c d : Nat) : Str :=
  Join '.' [Itoa (a : Int), Itoa (b : Int), Itoa (c : Int), Itoa (d : Int)]

/-- The 32-bit value of the octets `a.b.c.d`. -/
def octetsValue (a b c d : Nat) : Nat :=
  a * 16777216 + b * 65536 + c * 256 + d

/-- The canonical dotted-decimal literal of the 32-bit value `n`. -/
def canonical (n : Nat) : Str :=
  dotted (n / 16777216 % 256) (n / 65536 % 256) (n / 256 % 256) (n % 256)

/-- The probes of the address `host` on the ports from `s` to `e`, in ascending
order of port: the list that the dispatch is compared with. -/
def portsOf (host : Str) (s e : Int) : List Probe :=
  (List.range (e + 1 - s).toNat).map (fun (k : Nat) => Probe.mk host (s + (k : Int)))

/-- The invariant of the scan: the channel holds one value for each running
goroutine and one for the probe being started, it never holds more than its
capacity, and the probes are taken in the order of the dispatch list. -/
def ScanState.Inv (threads : Nat) (probes : List Probe) (s : ScanState) : Prop :=
  s.sem = s.inflight.length + s.holding.toList.length ∧ s.sem ≤ threads
    ∧ s.launched ++ s.holding.toList ++ s.pending = probes

/-! ## The report of a reachable port -/

/-- The map `mapPortDescriptions`: its keys and values, in the order of the
source. -/
def mapPortDescriptions : List (Int × String) := [
  (1, "(tcpmux/TCP) port service multiplexer"),
  (7, "(echo/Echo) service"),
  (9, "(discard/Null) service for connection testing"),
  (11, "(systat\tSystem) Status service for listing connected ports"),
  (13, "(daytime) Sends date and time to requesting host"),
  (17, "(qotd) Sends quote of the day to connected host"),
  (18, "(msp) Message Send Protocol"),
  (19, "(chargen) Character Generation service; sends endless stream of characters"),
  (20, "(ftp-data) FTP data port"),
  (21, "(ftp) File Transfer Protocol (FTP) port; sometimes used by File Service Protocol (FSP)"),
  (22, "(ssh) Secure Shell (SSH) service"),
  (23, "(telnet) The Telnet service"),
  (25, "(smtp) Simple Mail Transfer Protocol (SMTP)"),
  (37, "(time) Time Protocol"),
  (39, "(rlp) Resource Location Protocol"),
  (42, "(nameserver) Internet Name Service"),
  (43, "(nicname) WHOIS directory service"),
  (49, "(tacacs) Terminal Access Controller Access Control System for TCP/IP based authentication and access"),
  (50, "(re-mail-ck) Remote Mail Checking Protocol"),
  (53, "(domain) domain name services (such as BIND)"),
  (63, "(whois++) WHOIS++, extended WHOIS services"),
  (67, "(bootps) Bootstrap Protocol (BOOTP) services; also used by Dynamic Host Configuration Protocol (DHCP) services"),
  (68, "(bootpc) Bootstrap (BOOTP) client; also used by Dynamic Host Control Protocol (DHCP) clients"),
  (69, "(tftp) Trivial File Transfer Protocol (TFTP)"),
  (70, "(gopher) Gopher Internet document search and retrieval"),
  (71, "(netrjs-1) Remote Job Service"),
  (72, "(netrjs-2) Remote Job Service"),
  (73, "(netrjs-4) Remote Job Service"),
  (79, "(finger) Finger service for user contact information"),
  (80, "(http) HyperText Transfer Protocol (HTTP) for World Wide Web (WWW) services"),
  (88, "(kerberos) Kerberos network authentication system"),
  (95, "(supdup) Telnet protocol extension"),
  (101, "(hostname) Hostname services on SRI-NIC machines"),
  (102, "(tcp) iso-tsap ISO Development Environment (ISODE) network applications"),
  (105, "(csnet-ns) Mailbox nameserver; also used by CSO nameserver"),
  (107, "(rtelnet) Remote Telnet"),
  (109, "(pop2) Post Office Protocol version 2"),
  (110, "(pop3) Post Office Protocol version 3"),
  (111, "(sunrpc) Remote Procedure Call (RPC) Protocol for remote command execution, used by Network Filesystem (NFS)"),
  (113, "(auth) Authentication and Ident protocols"),
  (115, "(sftp) Secure File Transfer Protocol (SFTP) services"),
  (117, "(uucp-path\tUnix-to-Unix) Copy Protocol (UUCP) Path services"),
  (119, "(nntp) Network News Transfer Protocol (NNTP) for the USENET discussion system"),
  (123, "(ntp) Network Time Protocol (NTP)"),
  (137, "(netbios-ns) NETBIOS Name Service used in Red Hat Enterprise Linux by Samba"),
  (138, "(netbios-dgm) NETBIOS Datagram Service used in Red Hat Enterprise Linux by Samba"),
  (139, "(netbios-ssn) NETBIOS Session Service used in Red Hat Enterprise Linux by Samba"),
  (143, "(imap) Internet Message Access Protocol (IMAP)"),
  (161, "(snmp) Simple Network Management Protocol (SNMP)"),
  (162, "(snmptrap) Traps for SNMP"),
  (163, "(cmip-man) Common Management Information Protocol (CMIP)"),
  (164, "(cmip-agent) Common Management Information Protocol (CMIP)"),
  (174, "(mailq) AILQ email transport queue"),
  (177, "(xdmcp) X Display Manager Control Protocol (XDMCP)"),
  (178, "(nextstep) NeXTStep window server"),
  (179, "(bgp) Border Gateway Protocol"),
  (191, "(prospero) Prospero distributed filesystem services"),
  (194, "(irc) Internet Relay Chat (IRC)"),
  (199, "(smux) SNMP UNIX Multiplexer"),
  (201, "(at-rtmp) AppleTalk routing"),
  (202, "(at-nbp) AppleTalk name binding"),
  (204, "(at-echo) AppleTalk echo"),
  (206, "(at-zis) AppleTalk zone information"),
  (209, "(qmtp) Quick Mail Transfer Protocol (QMTP)"),
  (210, "(z39.50) NISO Z39.50 database"),
  (213, "(ipx) Internetwork Packet Exchange (IPX), a datagram protocol commonly used in Novell Netware environments"),
  (220, "(imap3) Internet Message Access Protocol version 3"),
  (245, "(link) LINK / 3-DNS iQuery service"),
  (347, "(fatserv) FATMEN file and tape management server"),
  (363, "(rsvp_tunnel) RSVP Tunnel"),
  (369, "(rpc2portmap) Coda file system portmapper"),
  (370, "(codaauth2) Coda file system authentication services"),
  (372, "(ulistproc) UNIX LISTSERV"),
  (389, "(ldap) Lightweight Directory Access Protocol (LDAP)"),
  (427, "(svrloc) Service Location Protocol (SLP)"),
  (434, "(mobileip-agent) Mobile Internet Protocol (IP) agent"),
  (435, "(mobilip-mn) Mobile Internet Protocol (IP) manager"),
  (443, "(https) Secure Hypertext Transfer Protocol (HTTP)"),
  (444, "(snpp) Simple Network Paging Protocol"),
  (445, "(microsoft-ds) Server Message Block (SMB) over TCP/IP"),
  (464, "(kpasswd) Kerberos password and key changing services"),
  (468, "(photuris) Photuris session key management protocol"),
  (487, "(saft) Simple Asynchronous File Transfer (SAFT) protocol"),
  (488, "(gss-http) Generic Security Services (GSS) for HTTP"),
  (496, "(pim-rp-disc) Rendezvous Point Discovery (RP-DISC) for Protocol Independent Multicast (PIM) services"),
  (500, "(isakmp) Internet Security Association and Key Management Protocol (ISAKMP)"),
  (535, "(iiop) Internet Inter-Orb Protocol (IIOP)"),
  (538, "(gdomap) GNUstep Distributed Objects Mapper (GDOMAP)"),
  (546, "(dhcpv6-client) Dynamic Host Configuration Protocol (DHCP) version 6 client"),
  (547, "(dhcpv6-server) Dynamic Host Configuration Protocol (DHCP) version 6 Service"),
  (554, "rtsp Real Time Stream Control Protocol (RTSP)"),
  (563, "(nntps) Network News Transport Protocol over Secure Sockets Layer (NNTPS)"),
  (565, "(whoami) whoami user ID listing"),
  (587, "(submission) Mail Message Submission Agent (MSA)"),
  (610, "(npmp-local) Network Peripheral Management Protocol (NPMP) local / Distributed Queueing System (DQS)"),
  (611, "(npmp-gui) Network Peripheral Management Protocol (NPMP) GUI / Distributed Queueing System (DQS)"),
  (612, "(hmmp-ind) HyperMedia Management Protocol (HMMP) Indication / DQS"),
  (631, "(ipp) Internet Printing Protocol (IPP)"),
  (636, "(ldaps) Lightweight Directory Access Protocol over Secure Sockets Layer (LDAPS)"),
  (674, "(acap) Application Configuration Access Protocol (ACAP)"),
  (694, "(ha-cluster) Heartbeat services for High-Availability Clusters"),
  (749, "(kerberos-adm) Kerberos version 5 (v5) 'kadmin' database administration"),
  (750, "(kerberos-iv) Kerberos version 4 (v4) services"),
  (765, "(webster) Network Dictionary"),
  (767, "(phonebook) Network Phonebook"),
  (873, "(rsync) rsync file transfer services"),
  (992, "(telnets) Telnet over Secure Sockets Layer (TelnetS)"),
  (993, "(imaps) Internet Message Access Protocol over Secure Sockets Layer (IMAPS)"),
  (994, "(ircs) Internet Relay Chat over Secure Sockets Layer (IRCS)"),
  (995, "(pop3s) Post Office Protocol version 3 over Secure Sockets Layer (POP3S)"),
  (512, "(exec) Authentication for remote process execution\nbiff [comsat] Asynchrous mail client (biff) and service (comsat)"),
  (513, "(login) Remote Login (rlogin)\nwho [whod] whod user logging daemon"),
  (514, "(shell) [cmd] Remote shell (rshell) and remote copy (rcp) with no logging\nsyslog UNIX system logging service"),
  (515, "(printer) [spooler] Line printer (lpr) spooler"),
  (517, "(talk) Talk remote calling service and client"),
  (518, "(ntalk) Network talk (ntalk) remote calling service and client"),
  (519, "(utime) [unixtime] UNIX time (utime) protocol"),
  (520, "(efs) Extended Filename Server (EFS)\nrouter [route, routed]\tRouting Information Protocol (RIP)"),
  (521, "(ripng) Routing Information Protocol for Internet Protocol version 6 (IPv6)"),
  (525, "(timed) [timeserver] Time daemon (timed)"),
  (526, "(tempo) [newdate] Tempo"),
  (530, "(courier) [rpc] Courier Remote Procedure Call (RPC) protocol"),
  (531, "(conference) [chat] Internet Relay Chat"),
  (532, "(netnews) Netnews newsgroup service"),
  (533, "(netwall) Netwall for emergency broadcasts"),
  (540, "(uucp) [uucpd] UNIX-to-UNIX copy services"),
  (543, "(klogin) Kerberos version 5 (v5) remote login"),
  (544, "(kshell) Kerberos version 5 (v5) remote shell"),
  (548, "(afpovertcp) Appletalk Filing Protocol (AFP) over Transmission Control Protocol (TCP)"),
  (556, "(remotefs) [rfs_server, rfs] Brunhoff's Remote Filesystem (RFS)"),
  (1080, "(socks) SOCKS network application proxy services"),
  (1236, "(bvcontrol) [rmtcfg] Remote configuration server for Gracilis Packeten network switches[a]"),
  (1300, "(h323hostcallsc) H.323 telecommunication Host Call Secure"),
  (1433, "(ms-sql-s) Microsoft SQL Server"),
  (1434, "(ms-sql-m) Microsoft SQL Monitor"),
  (1494, "(ica) Citrix ICA Client"),
  (1512, "(wins) Microsoft Windows Internet Name Server"),
  (1524, "(ingreslock) Ingres Database Management System (DBMS) lock services"),
  (1525, "(prospero-np) Prospero non-privileged"),
  (1645, "(datametrics) [old-radius] Datametrics / old radius entry"),
  (1646, "(sa-msg-port) [oldradacct] sa-msg-port / old radacct entry"),
  (1649, "(kermit) Kermit file transfer and management service"),
  (1701, "(l2tp) [l2f] Layer 2 Tunneling Protocol (LT2P) / Layer 2 Forwarding (L2F)"),
  (1718, "(h323gatedisc) H.323 telecommunication Gatekeeper Discovery"),
  (1719, "(h323gatestat) H.323 telecommunication Gatekeeper Status"),
  (1720, "(h323hostcall) H.323 telecommunication Host Call setup"),
  (1758, "(tftp-mcast) Trivial FTP Multicast"),
  (1759, "(mtftp) Multicast Trivial FTP (MTFTP)"),
  (1789, "(hello) Hello router communication protocol"),
  (1812, "(radius) Radius dial-up authentication and accounting services"),
  (1813, "(radius-acct) Radius Accounting"),
  (1911, "(mtp) Starlight Networks Multimedia Transport Protocol (MTP)"),
  (1985, "(hsrp) Cisco Hot Standby Router Protocol"),
  (1986, "(licensedaemon) Cisco License Management Daemon"),
  (1997, "(gdp-port) Cisco Gateway Discovery Protocol (GDP)"),
  (2049, "(nfs) [nfsd] Network File System (NFS)"),
  (2102, "(zephyr-srv) Zephyr distributed messaging Server"),
  (2103, "(zephyr-clt) Zephyr client"),
  (2104, "(zephyr-hm) Zephyr host manager"),
  (2401, "(cvspserver) Concurrent Versions System (CVS) client/server operations"),
  (2430, "(venus) Venus cache manager for Coda file system (codacon port)\nvenus Venus cache manager for Coda file system (callback/wbc interface)"),
  (2431, "(venus-se) Venus Transmission Control Protocol (TCP) side effects\nvenus-se Venus User Datagram Protocol (UDP) side effects"),
  (2432, "(codasrv) Coda file system server port"),
  (2433, "(codasrv-se) Coda file system TCP side effects\ncodasrv-se Coda file system UDP SFTP side effect"),
  (2600, "(hpstgmgr) [zebrasrv] Zebra routing[b]"),
  (2601, "(discp-client) [zebra] discp client; Zebra integrated shell"),
  (2602, "(discp-server) [ripd] discp server; Routing Information Protocol daemon (ripd)"),
  (2603, "(servicemeter) [ripngd] Service Meter; RIP daemon for IPv6"),
  (2604, "(nsc-ccs) [ospfd] NSC CCS; Open Shortest Path First daemon (ospfd)"),
  (2605, "(nsc-posa) NSC POSA; Border Gateway Protocol daemon (bgpd)"),
  (2606, "(netmon) [ospf6d] Dell Netmon; OSPF for IPv6 daemon (ospf6d)"),
  (2809, "(corbaloc) Common Object Request Broker Architecture (CORBA) naming service locator"),
  (3130, "(icpv2) Internet Cache Protocol version 2 (v2); used by Squid proxy caching server"),
  (3306, "(mysql) MySQL database service"),
  (3346, "(trnsprntproxy) Transparent proxy"),
  (4011, "(pxe) Pre-execution Environment (PXE) service"),
  (4321, "(rwhois) Remote Whois (rwhois) service"),
  (4444, "(krb524) Kerberos version 5 (v5) to version 4 (v4) ticket translator"),
  (5002, "(rfe) Radio Free Ethernet (RFE) audio broadcasting system"),
  (5308, "(cfengine) Configuration engine (Cfengine)"),
  (5999, "(cvsup) [CVSup] CVSup file transfer and update tool"),
  (6000, "(x11) [X] X Window System services"),
  (7000, "(afs3-fileserver) Andrew File System (AFS) file server"),
  (7001, "(afs3-callback) AFS port for callbacks to cache manager"),
  (7002, "(afs3-prserver) AFS user and group database"),
  (7003, "(afs3-vlserver) AFS volume location database"),
  (7004, "(afs3-kaserver) AFS Kerberos authentication service"),
  (7005, "(afs3-volser) AFS volume management server"),
  (7006, "(afs3-errors) AFS error interpretation service"),
  (7007, "(afs3-bos) AFS basic overseer process"),
  (7008, "(afs3-update) AFS server-to-server updater"),
  (7009, "(afs3-rmtsys) AFS remote cache manager service"),
  (9876, "(sd) Session Director for IP multicast conferencing"),
  (10080, "(amanda) Advanced Maryland Automatic Network Disk Archiver (Amanda) backup services"),
  (11371, "(pgpkeyserver) Pretty Good Privacy (PGP) / GNU Privacy Guard (GPG) public keyserver"),
  (11720, "(h323callsigalt) H.323 Call Signal Alternate"),
  (13720, "(bprd) Veritas NetBackup Request Daemon (bprd)"),
  (13721, "(bpdbm) Veritas NetBackup Database Manager (bpdbm)"),
  (13722, "(bpjava-msvc) Veritas NetBackup Java / Microsoft Visual C++ (MSVC) protocol"),
  (13724, "(vnetd) Veritas network utility"),
  (13782, "(bpcd) Veritas NetBackup"),
  (13783, "(vopied) Veritas VOPIE authentication daemon"),
  (22273, "(wnn6) [wnn4] Kana/Kanji conversion system[c]"),
  (26000, "(quake) Quake (and related) multi-player game servers"),
  (26208, "(wnn6-ds) Wnn6 Kana/Kanji server"),
  (33434, "(traceroute) Traceroute network tracking tool"),
  (751, "(kerberos_master) Kerberos authentication"),
  (752, "(passwd_server) Kerberos Password (kpasswd) server"),
  (754, "(krb5_prop) Kerberos v5 slave propagation"),
  (760, "(krbupdate) [kreg] Kerberos registration"),
  (1109, "(kpop) Kerberos Post Office Protocol (KPOP)"),
  (2053, "(knetd) Kerberos de-multiplexor"),
  (2105, "(eklogin) Kerberos v5 encrypted remote login (rlogin)"),
  (15, "(netstat) Network Status (netstat)"),
  (98, "(linuxconf) Linuxconf Linux administration tool"),
  (106, "(poppassd) Post Office Protocol password change daemon (POPPASSD)"),
  (465, "(smtps) Simple Mail Transfer Protocol over Secure Sockets Layer (SMTPS)"),
  (616, "(gii) Gated (routing daemon) Interactive Interface"),
  (808, "(omirr) [omirrd] Online Mirror (Omirr) file mirroring services"),
  (871, "(supfileserv) Software Upgrade Protocol (SUP) server"),
  (901, "(swat) Samba Web Administration Tool (SWAT)"),
  (953, "(rndc) Berkeley Internet Name Domain version 9 (BIND 9) remote configuration tool"),
  (1127, "(supfiledbg) Software Upgrade Protocol (SUP) debugging"),
  (1178, "(skkserv) Simple Kana to Kanji (SKK) Japanese input server"),
  (1313, "(xtel\tFrench) Minitel text information system"),
  (1529, "(support) [prmsd, gnatsd]\tGNATS bug tracking system"),
  (2003, "(cfinger) GNU finger"),
  (2150, "(ninstall) Network Installation Service"),
  (2988, "(afbackup) afbackup client-server backup system"),
  (3128, "(squid) Squid Web proxy cache"),
  (3455, "(prsvp) RSVP port"),
  (5432, "(postgres) PostgreSQL database"),
  (4557, "(fax) FAX transmission service (old service)"),
  (4559, "(hylafax) HylaFAX client-server protocol (new service)"),
  (5232, "(sgi-dgl) SGI Distributed Graphics Library"),
  (5354, "(noclog) NOCOL network operation center logging daemon (noclogd)"),
  (5355, "(hostmon) NOCOL network operation center host monitoring"),
  (5680, "(canna) Canna Japanese character input interface"),
  (6010, "(x11-ssh-offset) Secure Shell (SSH) X11 forwarding offset"),
  (6667, "(ircd) Internet Relay Chat daemon (ircd)"),
  (7100, "(xfs) X Font Server (XFS)"),
  (7666, "(tircproxy) Tircproxy IRC proxy service"),
  (8008, "(http-alt) Hypertext Tranfer Protocol (HTTP) alternate"),
  (8080, "(webcache) World Wide Web (WWW) caching service"),
  (8081, "(tproxy) Transparent Proxy"),
  (9100, "(jetdirect) [laserjet, hplj] Hewlett-Packard (HP) JetDirect network printing service"),
  (9359, "(mandelspawn) [mandelbrot]\tParallel mandelbrot spawning program for the X Window System"),
  (10081, "(kamanda) Amanda backup service over Kerberos"),
  (10082, "(amandaidx) Amanda index server"),
  (10083, "(amidxtape) Amanda tape server"),
  (20011, "(isdnlog) Integrated Services Digital Network (ISDN) logging system"),
  (20012, "(vboxd) ISDN voice box daemon (vboxd)"),
  (22305, "(wnn4_Kr) kWnn Korean input system"),
  (22289, "(wnn4_Cn) cWnn Chinese input system"),
  (22321, "(wnn4_Tw) tWnn Chinese input system (Taiwan)"),
  (24554, "(binkp) Binkley TCP/IP Fidonet mailer daemon"),
  (27374, "(asp) Address Search Protocol"),
  (60177, "(tfido) Ifmail FidoNet compatible mailer service"),
  (60179, "(fido) FidoNet electronic mail and news network")]

/-- The index expression `mapPortDescriptions[p]`: the value stored for the
key `p`, and the empty string when the map has no such key. -/
def portDescription (p : Int) : Str :=
  match mapPortDescriptions.lookup p with
  | some description => description.data
  | none => []

/-- The scanner made by `New`: the host as given and its parsed address (the
timeout plays no part in the report). -/
structure Scanner where
  host : Str
  ip : IP
  deriving DecidableEq, Repr

/-- The function `New`. -/
def New (parseIPv6 : Str → IP) (host : Str) : Scanner :=
  { host := host, ip := ParseIP parseIPv6 host }

/-- The method `IP.String`: `<nil>` for the nil slice, the dotted-decimal form
for an IPv4 address, and for any other slice the text `otherString` (the IPv6
and hexadecimal forms, a parameter of the model). -/
def IPString (otherString : IP → Str) (ip : IP) : Str :=
  match ip with
  | [] => "<nil>".data
  | _ :: _ =>
    match To4 ip with
    | some [a, b, c, d] => dotted a b c d
    | _ => otherString ip

/-- A value printed by the verbs `%9d`, `%10v` and `%45s`: padded with spaces
on the left up to the width. -/
def padLeft (width : Nat) (s : Str) : Str :=
  List.replicate (width - s.length) ' ' ++ s

/-- The text written by `fmt.Printf("%9d %10v %45s\n", p, address, description)`. -/
def reportLine (p : Int) (address description : Str) : Str :=
  padLeft 9 (Itoa p) ++ ' ' :: (padLeft 10 address ++ ' ' :: (padLeft 45 description ++ ['\n']))

/-- The goroutine of `Scanner.Start` for the port `p`, up to its receive from
`sem`: the text it writes to the standard output. The outcome of the
connection attempt is given by `connect`. -/
def probeOutput (otherString : IP → Str) (connect : Scanner → Int → Bool) (h : Scanner)
    (p : Int) : Str :=
  if connect h p then reportLine p (IPString otherString h.ip) (portDescription p) else []

/-- The number of lines of a text: the number of its line breaks. -/
def lineCount (text : Str) : Nat :=
  text.count '\n'

/-- The ports whose description in `mapPortDescriptions` holds a line break. -/
def twoLinePorts : List Int := [512, 513, 514, 520, 2430, 2431, 2433]

/-! ## Lemmas on the library functions -/

theorem Split_of_not_mem (sep : Char) (xs : Str) (h : sep ∉ xs) : Split sep xs = [xs] := by
  induction xs with
  | nil => rfl
  | cons c cs ih =>
    have hc : c ≠ sep := fun e => h (by simp [e])
    have hcs : sep ∉ cs := fun e => h (by simp [e])
    simp [Split, hc, ih hcs]

theorem Split_append_sep (sep : Char) (xs ys : Str) (h : sep ∉ xs) :
    Split sep (xs ++ sep :: ys) = xs :: Split sep ys := by
  induction xs with
  | nil => simp [Split]
  | cons c cs ih =>
    have hc : c ≠ sep := fun e => h (by simp [e])
    have hcs : sep ∉ cs := fun e => h (by simp [e])
    simp [Split, hc, ih hcs]

theorem Itoa_octet_no_dot : ∀ n : Nat, n < 256 → '.' ∉ Itoa (n : Int) := by
  set_option maxRecDepth 100000 in decide

theorem Itoa_octet_no_colon : ∀ n : Nat, n < 256 → ':' ∉ Itoa (n : Int) := by
  set_option maxRecDepth 100000 in decide

theorem Atoi_Itoa_octet : ∀ n : Nat, n < 256 → Atoi (Itoa (n : Int)) = some (n : Int) := by
  set_option maxRecDepth 100000 in decide

theorem parseOctet_Itoa_octet : ∀ n : Nat, n < 256 → parseOctet (Itoa (n : Int)) = some n := by
  set_option maxRecDepth 100000 in decide

theorem Itoa_octet_ne_nil : ∀ n : Nat, n < 256 → Itoa (n : Int) ≠ [] := by
  set_option maxRecDepth 100000 in decide

theorem Split_dotted (a b c d : Nat) (ha : a < 256) (hb : b < 256) (hc : c < 256)
    (hd : d < 256) :
    Split '.' (dotted a b c d)
      = [Itoa (a : Int), Itoa (b : Int), Itoa (c : Int), Itoa (d : Int)] := by
  simp only [dotted, Join]
  rw [Split_append_sep _ _ _ (Itoa_octet_no_dot a ha),
    Split_append_sep _ _ _ (Itoa_octet_no_dot b hb),
    Split_append_sep _ _ _ (Itoa_octet_no_dot c hc),
    Split_of_not_mem _ _ (Itoa_octet_no_dot d hd)]

/-! ## The successor of a canonical literal -/

theorem nextIP4_dotted (a b c d : Nat) (ha : a < 256) (hb : b < 256) (hc : c < 256)
    (hd : d < 256) :
    nextIP4 (dotted a b c d) =
      if d < 255 then Outcome.ok (dotted a b c (d + 1))
      else if c < 255 then Outcome.ok (dotted a b (c + 1) 0)
      else if b < 255 then Outcome.ok (dotted a (b + 1) 0 0)
      else if a < 255 then Outcome.ok (dotted (a + 1) 0 0 0)
      else Outcome.ok [] := by
  have h0 : Itoa (0 : Int) = ['0'] := by decide
  simp only [nextIP4, Split_dotted a b c d ha hb hc hd, List.reverse_cons, List.reverse_nil,
    List.nil_append, List.cons_append, nextIP4Loop, Atoi_Itoa_octet a ha, Atoi_Itoa_octet b hb,
    Atoi_Itoa_octet c hc, Atoi_Itoa_octet d hd]
  by_cases h1 : d < 255
  · have : ¬ ((d : Int) ≥ 255) := by omega
    simp [h1, this, dotted]
  · have e1 : (d : Int) ≥ 255 := by omega
    by_cases h2 : c < 255
    · have : ¬ ((c : Int) ≥ 255) := by omega
      simp [h1, h2, e1, this, dotted, h0]
    · have e2 : (c : Int) ≥ 255 := by omega
      by_cases h3 : b < 255
      · have : ¬ ((b : Int) ≥ 255) := by omega
        simp [h1, h2, h3, e1, e2, this, dotted, h0]
      · have e3 : (b : Int) ≥ 255 := by omega
        by_cases h4 : a < 255
        · have : ¬ ((a : Int) ≥ 255) := by omega
          simp [h1, h2, h3, h4, e1, e2, e3, this, dotted, h0]
        · have e4 : (a : Int) ≥ 255 := by omega
          simp [h1, h2, h3, h4, e1, e2, e3, e4]

theorem nextIP4_canonical (n : Nat) (h : n < 4294967295) :
    nextIP4 (canonical n) = Outcome.ok (canonical (n + 1)) := by
  unfold canonical
  rw [nextIP4_dotted _ _ _ _ (Nat.mod_lt _ (by norm_num)) (Nat.mod_lt _ (by norm_num))
    (Nat.mod_lt _ (by norm_num)) (Nat.mod_lt _ (by norm_num))]
  by_cases h1 : n % 256 < 255
  · have e1 : (n + 1) / 16777216 % 256 = n / 16777216 % 256 := by omega
    have e2 : (n + 1) / 65536 % 256 = n / 65536 % 256 := by omega
    have e3 : (n + 1) / 256 % 256 = n / 256 % 256 := by omega
    have e4 : (n + 1) % 256 = n % 256 + 1 := by omega
    rw [if_pos h1, e1, e2, e3, e4]
  · rw [if_neg h1]
    by_cases h2 : n / 256 % 256 < 255
    · have e1 : (n + 1) / 16777216 % 256 = n / 16777216 % 256 := by omega
      have e2 : (n + 1) / 65536 % 256 = n / 65536 % 256 := by omega
      have e3 : (n + 1) / 256 % 256 = n / 256 % 256 + 1 := by omega
      have e4 : (n + 1) % 256 = 0 := by omega
      rw [if_pos h2, e1, e2, e3, e4]
    · rw [if_neg h2]
      by_cases h3 : n / 65536 % 256 < 255
      · have e1 : (n + 1) / 16777216 % 256 = n / 16777216 % 256 := by omega
        have e2 : (n + 1) / 65536 % 256 = n / 65536 % 256 + 1 := by omega
        have e3 : (n + 1) / 256 % 256 = 0 := by omega
        have e4 : (n + 1) % 256 = 0 := by omega
        rw [if_pos h3, e1, e2, e3, e4]
      · rw [if_neg h3]
        have h4 : n / 16777216 % 256 < 255 := by omega
        have e1 : (n + 1) / 16777216 % 256 = n / 16777216 % 256 + 1 := by omega
        have e2 : (n + 1) / 65536 % 256 = 0 := by omega
        have e3 : (n + 1) / 256 % 256 = 0 := by omega
        have e4 : (n + 1) % 256 = 0 := by omega
        rw [if_pos h4, e1, e2, e3, e4]

theorem nextIP4_canonical_max : nextIP4 (canonical 4294967295) = Outcome.ok [] := by decide

theorem canonical_ne_nil (n : Nat) : canonical n ≠ [] := by
  have h := Itoa_octet_ne_nil (n / 16777216 % 256) (Nat.mod_lt _ (by norm_num))
  intro e
  simp [canonical, dotted, Join] at e

/-! ## Parsing and comparing canonical literals -/

theorem firstSeparator_append_dot (xs ys : Str) (h1 : '.' ∉ xs) (h2 : ':' ∉ xs) :
    firstSeparator (xs ++ '.' :: ys) = some '.' := by
  induction xs with
  | nil => simp [firstSeparator]
  | cons c cs ih =>
    have hc1 : c ≠ '.' := fun e => h1 (by simp [e])
    have hc2 : c ≠ ':' := fun e => h2 (by simp [e])
    have hcs1 : '.' ∉ cs := fun e => h1 (by simp [e])
    have hcs2 : ':' ∉ cs := fun e => h2 (by simp [e])
    simp [firstSeparator, hc1, hc2, ih hcs1 hcs2]

theorem ParseIP_dotted (parseIPv6 : Str → IP) (a b c d : Nat) (ha : a < 256) (hb : b < 256)
    (hc : c < 256) (hd : d < 256) :
    ParseIP parseIPv6 (dotted a b c d) = IPv4 a b c d := by
  have hsep : firstSeparator (dotted a b c d) = some '.' := by
    simp only [dotted, Join]
    exact firstSeparator_append_dot _ _ (Itoa_octet_no_dot a ha) (Itoa_octet_no_colon a ha)
  simp [ParseIP, hsep, parseIPv4, Split_dotted a b c d ha hb hc hd, parseOctet_Itoa_octet a ha,
    parseOctet_Itoa_octet b hb, parseOctet_Itoa_octet c hc, parseOctet_Itoa_octet d hd]

theorem To4_IPv4 (a b c d : Nat) : To4 (IPv4 a b c d) = some [a, b, c, d] := by
  simp [To4, IPv4]

theorem bytesCompare_IPv4 (a b c d a2 b2 c2 d2 : Nat) :
    bytesCompare (IPv4 a b c d) (IPv4 a2 b2 c2 d2) = bytesCompare [a, b, c, d] [a2, b2, c2, d2] := by
  simp [IPv4, bytesCompare]

theorem bytesCompare_octets_nonneg (a b c d a2 b2 c2 d2 : Nat) (hb : b < 256) (hc : c < 256)
    (hd : d < 256) (hb2 : b2 < 256) (hc2 : c2 < 256) (hd2 : d2 < 256) :
    bytesCompare [a, b, c, d] [a2, b2, c2, d2] ≥ 0
      ↔ octetsValue a2 b2 c2 d2 ≤ octetsValue a b c d := by
  simp only [bytesCompare, octetsValue]
  split_ifs <;> constructor <;> intro h <;> omega

theorem bytesCompare_octets_nonpos (a b c d a2 b2 c2 d2 : Nat) (hb : b < 256) (hc : c < 256)
    (hd : d < 256) (hb2 : b2 < 256) (hc2 : c2 < 256) (hd2 : d2 < 256) :
    bytesCompare [a, b, c, d] [a2, b2, c2, d2] ≤ 0
      ↔ octetsValue a b c d ≤ octetsValue a2 b2 c2 d2 := by
  simp only [bytesCompare, octetsValue]
  split_ifs <;> constructor <;> intro h <;> omega

theorem octetsValue_canonical (n : Nat) (h : n < 4294967296) :
    octetsValue (n / 16777216 % 256) (n / 65536 % 256) (n / 256 % 256) (n % 256) = n := by
  unfold octetsValue
  omega

theorem ParseIP_canonical (parseIPv6 : Str → IP) (n : Nat) :
    ParseIP parseIPv6 (canonical n)
      = IPv4 (n / 16777216 % 256) (n / 65536 % 256) (n / 256 % 256) (n % 256) :=
  ParseIP_dotted parseIPv6 _ _ _ _ (Nat.mod_lt _ (by norm_num)) (Nat.mod_lt _ (by norm_num))
    (Nat.mod_lt _ (by norm_num)) (Nat.mod_lt _ (by norm_num))

theorem isIP4Range_canonical (parseIPv6 : Str → IP) (i a b : Nat) (hi : i < 4294967296)
    (ha : a < 4294967296) (hb : b < 4294967296) :
    isIP4Range parseIPv6 (canonical i) (canonical a) (canonical b)
      = Outcome.ok (decide (a ≤ i ∧ i ≤ b)) := by
  have m : ∀ k : Nat, k % 256 < 256 := fun k => Nat.mod_lt _ (by norm_num)
  have h1 := bytesCompare_octets_nonneg (i / 16777216 % 256) (i / 65536 % 256) (i / 256 % 256)
    (i % 256) (a / 16777216 % 256) (a / 65536 % 256) (a / 256 % 256) (a % 256)
    (m _) (m _) (m _) (m _) (m _) (m _)
  have h2 := bytesCompare_octets_nonpos (i / 16777216 % 256) (i / 65536 % 256) (i / 256 % 256)
    (i % 256) (b / 16777216 % 256) (b / 65536 % 256) (b / 256 % 256) (b % 256)
    (m _) (m _) (m _) (m _) (m _) (m _)
  rw [octetsValue_canonical i hi, octetsValue_canonical a ha] at h1
  rw [octetsValue_canonical i hi, octetsValue_canonical b hb] at h2
  simp only [isIP4Range, ParseIP_canonical, To4_IPv4, bytesCompare_IPv4, h1, h2]
  by_cases h : a ≤ i ∧ i ≤ b <;> simp [h]

theorem canonical_injective (m n : Nat) (hm : m < 4294967296) (hn : n < 4294967296)
    (h : canonical m = canonical n) : m = n := by
  have e := ParseIP_canonical (fun _ => []) m
  rw [h, ParseIP_canonical] at e
  simp only [IPv4, List.cons.injEq, true_and, and_true] at e
  omega

/-! ## The address table of a canonical range -/

theorem createIP4TableLoop_canonical (parseIPv6 : Str → IP) (a b : Nat) (hb : b < 4294967296)
    (ha : a < 4294967296) :
    ∀ (k fuel i : Nat) (table : List Str), k < fuel → a ≤ i → i + k = b →
      createIP4TableLoop parseIPv6 (canonical a) (canonical b) fuel table (canonical i)
        = some (Outcome.ok (table ++ (List.range' i (k + 1)).map canonical)) := by
  intro k
  induction k with
  | zero =>
    intro fuel i table hf hai hik
    obtain ⟨f, rfl⟩ : ∃ f, fuel = f + 1 := ⟨fuel - 1, by omega⟩
    have hib : i = b := by omega
    subst hib
    by_cases hmax : i = 4294967295
    · subst hmax
      simp [createIP4TableLoop, nextIP4_canonical_max]
    · have hlt : i < 4294967295 := by omega
      have hr := isIP4Range_canonical parseIPv6 (i + 1) a i (by omega) ha hb
      have hd : decide (a ≤ i + 1 ∧ i + 1 ≤ i) = false := by simp
      rw [hd] at hr
      simp [createIP4TableLoop, nextIP4_canonical i hlt, canonical_ne_nil, hr]
  | succ k ih =>
    intro fuel i table hf hai hik
    obtain ⟨f, rfl⟩ : ∃ f, fuel = f + 1 := ⟨fuel - 1, by omega⟩
    have hlt : i < 4294967295 := by omega
    have hr := isIP4Range_canonical parseIPv6 (i + 1) a b (by omega) ha hb
    have hd : decide (a ≤ i + 1 ∧ i + 1 ≤ b) = true := by simp; omega
    rw [hd] at hr
    have hrec := ih f (i + 1) (table ++ [canonical i]) (by omega) (by omega) (by omega)
    simp only [createIP4TableLoop, nextIP4_canonical i hlt, canonical_ne_nil, hr, if_false]
    rw [hrec]
    simp [List.range'_succ]

theorem canonical_range_nodup (a n : Nat) (h : a + n ≤ 4294967296) :
    ((List.range' a n).map canonical).Nodup := by
  refine (List.nodup_range' a n).map_on ?_
  intro x hx y hy hxy
  rw [List.mem_range'_1] at hx hy
  exact canonical_injective x y (by omega) (by omega) hxy

theorem canonical_octetsValue (a b c d : Nat) (ha : a < 256) (hb : b < 256) (hc : c < 256)
    (hd : d < 256) : canonical (octetsValue a b c d) = dotted a b c d := by
  unfold canonical octetsValue
  have e1 : (a * 16777216 + b * 65536 + c * 256 + d) / 16777216 % 256 = a := by omega
  have e2 : (a * 16777216 + b * 65536 + c * 256 + d) / 65536 % 256 = b := by omega
  have e3 : (a * 16777216 + b * 65536 + c * 256 + d) / 256 % 256 = c := by omega
  have e4 : (a * 16777216 + b * 65536 + c * 256 + d) % 256 = d := by omega
  rw [e1, e2, e3, e4]

/-- C1. For canonical literals of the 32-bit values `a ≤ b`, `createIP4Table`
returns (with any fuel above `b - a`) exactly the canonical literals of
`a, a + 1, ..., b` in that order; the table has `b - a + 1` entries, begins
with the literal of `a`, ends with the literal of `b` and has no duplicate. -/
theorem createIP4Table_canonical (parseIPv6 : Str → IP) (a b fuel : Nat) (hab : a ≤ b)
    (hb : b < 4294967296) (hf : b - a < fuel) :
    createIP4Table parseIPv6 fuel (canonical a) (canonical b)
        = some (Outcome.ok ((List.range' a (b - a + 1)).map canonical))
      ∧ ((List.range' a (b - a + 1)).map canonical).length = b - a + 1
      ∧ ((List.range' a (b - a + 1)).map canonical).head? = some (canonical a)
      ∧ ((List.range' a (b - a + 1)).map canonical).getLast? = some (canonical b)
      ∧ ((List.range' a (b - a + 1)).map canonical).Nodup := by
  refine ⟨?_, by simp, by simp [List.range'_succ], ?_, canonical_range_nodup _ _ (by omega)⟩
  · by_cases h : a = b
    · subst h
      simp [createIP4Table]
    · have hne : canonical a ≠ canonical b :=
        fun e => h (canonical_injective a b (by omega) hb e)
      have hl := createIP4TableLoop_canonical parseIPv6 a b hb (by omega) (b - a) fuel a [] hf
        (le_refl a) (by omega)
      simpa [createIP4Table, hne] using hl
  · rw [List.getLast?_eq_getElem?]
    simp
    rw [Nat.add_sub_cancel' hab]

/-- The test range of C1: from 0.0.0.254 to 0.0.1.1, and from 127.0.255.250
to 127.1.0.5. -/
theorem createIP4Table_canonical_witness :
    createIP4Table (fun _ => []) 4 "0.0.0.254".data "0.0.1.1".data
        = some (Outcome.ok
            ["0.0.0.254".data, "0.0.0.255".data, "0.0.1.0".data, "0.0.1.1".data])
      ∧ createIP4Table (fun _ => []) 12 "127.0.255.250".data "127.1.0.5".data
        = some (Outcome.ok
            ["127.0.255.250".data, "127.0.255.251".data, "127.0.255.252".data,
             "127.0.255.253".data, "127.0.255.254".data, "127.0.255.255".data,
             "127.1.0.0".data, "127.1.0.1".data, "127.1.0.2".data, "127.1.0.3".data,
             "127.1.0.4".data, "127.1.0.5".data]) :=
  ⟨(createIP4Table_canonical (fun _ => []) 254 257 4 (by decide) (by decide) (by decide)).1,
   (createIP4Table_canonical (fun _ => []) 2130771962 2130771973 12 (by decide) (by decide)
      (by decide)).1⟩

/-! ## The successor and the sentinel -/

/-- C2. For the canonical literal of octets `a.b.c.d` other than
255.255.255.255, `nextIP4` returns the canonical literal of the 32-bit value
plus one: the last octet below 255 is incremented and every octet to its right,
all equal to 255, becomes 0. -/
theorem nextIP4_successor (a b c d : Nat) (ha : a < 256) (hb : b < 256) (hc : c < 256)
    (hd : d < 256) (hne : ¬ (a = 255 ∧ b = 255 ∧ c = 255 ∧ d = 255)) :
    nextIP4 (dotted a b c d) = Outcome.ok (canonical (octetsValue a b c d + 1))
      ∧ nextIP4 (dotted a b c d) = Outcome.ok
          (if d < 255 then dotted a b c (d + 1)
           else if c < 255 then dotted a b (c + 1) 0
           else if b < 255 then dotted a (b + 1) 0 0
           else dotted (a + 1) 0 0 0) := by
  constructor
  · rw [← canonical_octetsValue a b c d ha hb hc hd]
    exact nextIP4_canonical _ (by unfold octetsValue; omega)
  · rw [nextIP4_dotted a b c d ha hb hc hd]
    by_cases h1 : d < 255
    · simp [h1]
    · by_cases h2 : c < 255
      · simp [h1, h2]
      · by_cases h3 : b < 255
        · simp [h1, h2, h3]
        · have h4 : a < 255 := by omega
          simp [h1, h2, h3, h4]

/-- The successors of the test of `nextIP4`: two steps from 0.0.0.254, from
0.0.255.254 and from 0.255.255.254. -/
theorem nextIP4_successor_witness :
    (nextIP4 "0.0.0.254".data = Outcome.ok "0.0.0.255".data
      ∧ nextIP4 "0.0.0.255".data = Outcome.ok "0.0.1.0".data)
    ∧ (nextIP4 "0.0.255.254".data = Outcome.ok "0.0.255.255".data
      ∧ nextIP4 "0.0.255.255".data = Outcome.ok "0.1.0.0".data)
    ∧ (nextIP4 "0.255.255.254".data = Outcome.ok "0.255.255.255".data
      ∧ nextIP4 "0.255.255.255".data = Outcome.ok "1.0.0.0".data) :=
  ⟨⟨(nextIP4_successor 0 0 0 254 (by decide) (by decide) (by decide) (by decide) (by decide)).1,
    (nextIP4_successor 0 0 0 255 (by decide) (by decide) (by decide) (by decide) (by decide)).1⟩,
   ⟨(nextIP4_successor 0 0 255 254 (by decide) (by decide) (by decide) (by decide) (by decide)).1,
    (nextIP4_successor 0 0 255 255 (by decide) (by decide) (by decide) (by decide) (by decide)).1⟩,
   ⟨(nextIP4_successor 0 255 255 254 (by decide) (by decide) (by decide) (by decide) (by decide)).1,
    (nextIP4_successor 0 255 255 255 (by decide) (by decide) (by decide) (by decide)
      (by decide)).1⟩⟩

/-- C3. The successor of 255.255.255.254 is 255.255.255.255, the successor of
255.255.255.255 is the empty string, and the canonical literal of a 32-bit
value has the empty string as successor exactly when it is 255.255.255.255. -/
theorem nextIP4_sentinel (n : Nat) (h : n < 4294967296) :
    nextIP4 "255.255.255.254".data = Outcome.ok "255.255.255.255".data
      ∧ nextIP4 "255.255.255.255".data = Outcome.ok []
      ∧ (nextIP4 (canonical n) = Outcome.ok [] ↔ canonical n = "255.255.255.255".data) := by
  refine ⟨by decide, by decide, ?_⟩
  have hmax : canonical 4294967295 = "255.255.255.255".data := by decide
  constructor
  · intro hn
    by_cases hlt : n < 4294967295
    · rw [nextIP4_canonical n hlt] at hn
      exact absurd (Outcome.ok.inj hn) (canonical_ne_nil _)
    · have : n = 4294967295 := by omega
      rw [this, hmax]
  · intro hn
    rw [hn]
    decide

/-- The sentinel at the values 4294967295 (reached) and 0 (not reached). -/
theorem nextIP4_sentinel_witness :
    ((4294967295 : Nat) < 4294967296
      ∧ (nextIP4 (canonical 4294967295) = Outcome.ok []
          ↔ canonical 4294967295 = "255.255.255.255".data))
    ∧ ((0 : Nat) < 4294967296
      ∧ (nextIP4 "0.0.0.0".data = Outcome.ok [] ↔ "0.0.0.0".data = "255.255.255.255".data)) :=
  ⟨⟨by decide, (nextIP4_sentinel 4294967295 (by decide)).2.2⟩,
   ⟨by decide, (nextIP4_sentinel 0 (by decide)).2.2⟩⟩

/-! ## The port range -/

theorem clampPortStart_ge (portStart : Int) : 1 ≤ clampPortStart portStart := by
  unfold clampPortStart; split_ifs <;> omega

theorem clampPortEnd_bounds (portEnd : Int) :
    1 ≤ clampPortEnd portEnd ∧ clampPortEnd portEnd ≤ 65536 := by
  unfold clampPortEnd; split_ifs <;> omega

theorem portRange_eq (portStart portEnd : Int) :
    portRange portStart portEnd =
      if clampPortEnd portEnd < clampPortStart portStart then Outcome.fatal (Fatal.exit 0)
      else Outcome.ok (clampPortStart portStart, clampPortEnd portEnd) := by
  have hs := clampPortStart_ge portStart
  have he := clampPortEnd_bounds portEnd
  unfold portRange usage
  by_cases h : clampPortEnd portEnd < clampPortStart portStart
  · simp [h]
  · have hb : ¬ portOutOfBounds (clampPortStart portStart) (clampPortEnd portEnd) := by
      unfold portOutOfBounds; omega
    simp [h, hb]

/-- C4, as the claim states it, fails: with both bounds unset the range is
not (1, 65535). -/
theorem portRange_default_not_65535 : portRange 0 0 ≠ Outcome.ok (1, 65535) := by decide

/-- C4, amended. With both bounds unset (0), the clamping of `main` gives
the range start = 1, end = 65536. -/
theorem portRange_default : portRange 0 0 = Outcome.ok (1, 65536) := by decide

/-- C5, as the claim states it, fails: the unset bounds are accepted with the
end 65536, above 65535. -/
theorem portRange_accepts_65536 :
    ¬ (∀ portStart portEnd s e : Int, portRange portStart portEnd = Outcome.ok (s, e) →
        1 ≤ s ∧ s ≤ e ∧ e ≤ 65535) := by
  intro h
  have := h 0 0 1 65536 (by decide)
  omega

/-- C5, amended. A range accepted by the clamping and validation of `main`
satisfies 1 ≤ start ≤ end ≤ 65536. -/
theorem portRange_bounds (portStart portEnd s e : Int)
    (h : portRange portStart portEnd = Outcome.ok (s, e)) :
    1 ≤ s ∧ s ≤ e ∧ e ≤ 65536 := by
  have hs := clampPortStart_ge portStart
  have he := clampPortEnd_bounds portEnd
  rw [portRange_eq] at h
  split_ifs at h with hlt
  simp only [Outcome.ok.injEq, Prod.mk.injEq] at h
  omega

/-- The bounds of the range accepted for the explicit ports 10 and 10000. -/
theorem portRange_bounds_witness :
    portRange 10 10000 = Outcome.ok (10, 10000)
      ∧ ((1 : Int) ≤ 10 ∧ (10 : Int) ≤ 10000 ∧ (10000 : Int) ≤ 65536) :=
  ⟨by decide, portRange_bounds 10 10000 10 10000 (by decide)⟩

/-! ## The dispatch order -/

theorem StartLoop_eq (host : Str) (portEnds : Int) :
    ∀ (n : Nat) (port : Int), (portEnds + 1 - port).toNat = n →
      StartLoop host portEnds port = portsOf host port portEnds := by
  intro n
  induction n with
  | zero =>
    intro port h
    rw [StartLoop]
    have : ¬ port ≤ portEnds := by omega
    simp [this, portsOf, h]
  | succ n ih =>
    intro port h
    rw [StartLoop]
    have hle : port ≤ portEnds := by omega
    have hrec := ih (port + 1) (by omega)
    rw [if_pos hle, hrec]
    unfold portsOf
    have e1 : (portEnds + 1 - port).toNat = n + 1 := h
    have e2 : (portEnds + 1 - (port + 1)).toNat = n := by omega
    rw [e1, e2, List.range_succ_eq_map]
    simp [List.map_map, Function.comp_def]
    intro k _
    omega

theorem Start_eq (host : Str) (s e : Int) : Start host s e = portsOf host s e :=
  StartLoop_eq host e _ s rfl

theorem dispatchLoop_eq (table : List Str) (s e : Int) :
    dispatchLoop table s e = table.flatMap (fun ip => portsOf ip s e) := by
  induction table with
  | nil => rfl
  | cons ip rest ih => simp [dispatchLoop, ih, Start_eq]

theorem portsOf_length (host : Str) (s e : Int) :
    (portsOf host s e).length = (e + 1 - s).toNat := by
  simp [portsOf]

theorem dispatchLoop_length (table : List Str) (s e : Int) :
    (dispatchLoop table s e).length = table.length * (e + 1 - s).toNat := by
  rw [dispatchLoop_eq]
  induction table with
  | nil => simp
  | cons ip rest ih =>
    simp only [List.flatMap_cons, List.length_append, ih, portsOf_length, List.length_cons]
    ring

/-! ## The semaphore invariant -/

theorem Inv_init (threads : Nat) (probes : List Probe) :
    (ScanState.init probes).Inv threads probes := by
  simp [ScanState.Inv, ScanState.init]

theorem Inv_step (threads : Nat) (probes : List Probe) (s t : ScanState)
    (hs : s.Inv threads probes) (hst : Step threads s t) : t.Inv threads probes := by
  obtain ⟨h1, h2, h3⟩ := hs
  cases hst with
  | acquire p rest _ hp hh hlt =>
    simp only [ScanState.Inv, hh, hp, Option.toList_none, List.length_nil, List.append_nil,
      Option.toList_some, List.length_singleton] at h1 h3 ⊢
    refine ⟨by omega, by omega, ?_⟩
    simpa using h3
  | launch p _ hh =>
    simp only [ScanState.Inv, hh, Option.toList_none, List.length_nil, List.append_nil,
      Option.toList_some, List.length_singleton, List.length_cons] at h1 h3 ⊢
    exact ⟨by omega, h2, h3⟩
  | release p _ hp hpos =>
    have hl : (s.inflight.erase p).length = s.inflight.length - 1 := List.length_erase_of_mem hp
    have hpos2 : 0 < s.inflight.length := List.length_pos_of_mem hp
    simp only [ScanState.Inv] at h1 h3 ⊢
    exact ⟨by omega, by omega, h3⟩

theorem Reachable_Inv (threads : Nat) (probes : List Probe) (s : ScanState)
    (h : Reachable threads probes s) : s.Inv threads probes := by
  induction h with
  | init => exact Inv_init threads probes
  | step s t _ hst ih => exact Inv_step threads probes s t ih hst

theorem Reachable_drain (threads : Nat) (hN : 1 ≤ threads) (probes : List Probe) :
    ∀ (rest done : List Probe),
      Reachable threads probes
        { pending := rest, holding := none, inflight := [], sem := 0, launched := done } →
      Reachable threads probes
        { pending := [], holding := none, inflight := [], sem := 0,
          launched := done ++ rest } := by
  intro rest
  induction rest with
  | nil => intro done h; simpa using h
  | cons p rest ih =>
    intro done h
    have h1 := Reachable.step _ _ h (Step.acquire p rest _ rfl rfl (by simpa using hN))
    have h2 := Reachable.step _ _ h1 (Step.launch p _ rfl)
    have h3 := Reachable.step _ _ h2 (Step.release p _ (by simp) (by simp))
    have h4 := ih (done ++ [p]) (by simpa using h3)
    simpa using h4

theorem Reachable_complete (threads : Nat) (hN : 1 ≤ threads) (probes : List Probe) :
    Reachable threads probes
      { pending := [], holding := none, inflight := [], sem := 0, launched := probes } := by
  have h := Reachable_drain threads hN probes probes [] Reachable.init
  simpa using h

theorem Reachable_launched_initial (threads : Nat) (probes : List Probe) (s : ScanState)
    (h : Reachable threads probes s) : s.launched <+: probes := by
  obtain ⟨_, _, h3⟩ := Reachable_Inv threads probes s h
  exact ⟨s.holding.toList ++ s.pending, by rw [← List.append_assoc]; exact h3⟩

/-! ## The claims on the port validation and the dispatch -/

/-- C6, as the claim states it, fails: the explicit bounds start = 5, end = 0
have end < start, yet the end is clamped to 65536, the validation passes and
65532 probes are dispatched on the address 127.0.0.1. -/
theorem scanSession_end_zero_accepted :
    (0 : Int) < 5
      ∧ portRange 5 0 = Outcome.ok (5, 65536)
      ∧ scanSession (fun _ => []) 1 "127.0.0.1".data "127.0.0.1".data 5 0 (Outcome.ok ())
          = some (Outcome.ok (dispatchLoop ["127.0.0.1".data] 5 65536))
      ∧ (dispatchLoop ["127.0.0.1".data] 5 65536).length = 65532 := by
  have hp : portRange 5 0 = Outcome.ok (5, 65536) := by decide
  refine ⟨by decide, hp, ?_, ?_⟩
  · simp [scanSession, hp, createIP4Table]
  · rw [dispatchLoop_length]
    rfl

/-- C6, amended. For explicit bounds with 1 ≤ end < start the port validation
of `main` fails: the process exits in `usage` and the session dispatches no
probe, whatever the addresses, the options and the fuel. -/
theorem scanSession_rejects_reversed_ports (parseIPv6 : Str → IP) (fuel : Nat)
    (ip_start ip_end : Str) (portStart portEnd : Int) (options : Outcome Unit)
    (h1 : 1 ≤ portEnd) (h2 : portEnd < portStart) :
    portRange portStart portEnd = Outcome.fatal (Fatal.exit 0)
      ∧ scanSession parseIPv6 fuel ip_start ip_end portStart portEnd options
          = some (Outcome.fatal (Fatal.exit 0)) := by
  have hp : portRange portStart portEnd = Outcome.fatal (Fatal.exit 0) := by
    rw [portRange_eq]
    have : clampPortEnd portEnd < clampPortStart portStart := by
      unfold clampPortEnd clampPortStart
      split_ifs <;> omega
    simp [this]
  exact ⟨hp, by simp [scanSession, hp]⟩

/-- The rejection of the explicit ports 20:10. -/
theorem scanSession_rejects_reversed_ports_witness :
    (1 : Int) ≤ 10 ∧ (10 : Int) < 20
      ∧ scanSession (fun _ => []) 1 "127.0.0.1".data "127.0.0.1".data 20 10 (Outcome.ok ())
          = some (Outcome.fatal (Fatal.exit 0)) :=
  ⟨by decide, by decide,
    (scanSession_rejects_reversed_ports (fun _ => []) 1 "127.0.0.1".data "127.0.0.1".data 20 10
      (Outcome.ok ()) (by decide) (by decide)).2⟩

/-- C7. For every address table and every validated port range `[s, e]`, the
dispatch loop dispatches the probes of the first address on the ports
`s, ..., e` in ascending order, then those of the second address, and so on;
their number is `|T| * (e - s + 1)`. In every state that the scan reaches the
probes started so far are a prefix of that list, and with a capacity of at
least 1 the state in which all of them were started and are over is reached. -/
theorem dispatchLoop_order (table : List Str) (s e : Int)
    (hv : 1 ≤ s ∧ s ≤ e ∧ e ≤ 65536) :
    dispatchLoop table s e = table.flatMap (fun ip => portsOf ip s e)
      ∧ ((dispatchLoop table s e).length : Int) = table.length * (e - s + 1)
      ∧ (∀ (threads : Nat) (st : ScanState), Reachable threads (dispatchLoop table s e) st →
          st.launched <+: dispatchLoop table s e)
      ∧ (∀ threads : Nat, 1 ≤ threads →
          Reachable threads (dispatchLoop table s e)
            { pending := [], holding := none, inflight := [], sem := 0,
              launched := dispatchLoop table s e }) := by
  refine ⟨dispatchLoop_eq table s e, ?_, ?_, ?_⟩
  · rw [dispatchLoop_length]
    push_cast
    have : (((e + 1 - s).toNat : Nat) : Int) = e - s + 1 := by omega
    rw [this]
  · intro threads st h
    exact Reachable_launched_initial threads _ st h
  · intro threads h
    exact Reachable_complete threads h _

/-- The dispatch of two addresses on the ports 80 to 82. -/
theorem dispatchLoop_order_witness :
    ((1 : Int) ≤ 80 ∧ (80 : Int) ≤ 82 ∧ (82 : Int) ≤ 65536)
      ∧ dispatchLoop ["10.0.0.1".data, "10.0.0.2".data] 80 82
          = [Probe.mk "10.0.0.1".data 80, Probe.mk "10.0.0.1".data 81,
             Probe.mk "10.0.0.1".data 82, Probe.mk "10.0.0.2".data 80,
             Probe.mk "10.0.0.2".data 81, Probe.mk "10.0.0.2".data 82]
      ∧ ((dispatchLoop ["10.0.0.1".data, "10.0.0.2".data] 80 82).length : Int) = 2 * (82 - 80 + 1) :=
  ⟨by decide,
   (dispatchLoop_order ["10.0.0.1".data, "10.0.0.2".data] 80 82 (by decide)).1,
   (dispatchLoop_order ["10.0.0.1".data, "10.0.0.2".data] 80 82 (by decide)).2.1⟩

/-- C8. For every capacity of the channel (in particular every capacity of
at least 1), in every state that the scan reaches the number of probes in
flight is between 0 and the capacity; it is at most the number of values in
the channel, which is at most the capacity. -/
theorem inflight_le_threads (threads : Nat) (probes : List Probe) (s : ScanState)
    (h : Reachable threads probes s) :
    0 ≤ s.inflight.length ∧ s.inflight.length ≤ threads ∧ s.inflight.length ≤ s.sem
      ∧ s.sem ≤ threads := by
  obtain ⟨h1, h2, _⟩ := Reachable_Inv threads probes s h
  omega

/-- A state reached with the capacity 1 in which one probe is in flight. -/
theorem inflight_le_threads_witness :
    Reachable 1 [Probe.mk "127.0.0.1".data 80, Probe.mk "127.0.0.1".data 81]
        { pending := [Probe.mk "127.0.0.1".data 81], holding := none,
          inflight := [Probe.mk "127.0.0.1".data 80], sem := 1,
          launched := [Probe.mk "127.0.0.1".data 80] }
      ∧ [Probe.mk "127.0.0.1".data 80].length ≤ 1 := by
  have hr : Reachable 1 [Probe.mk "127.0.0.1".data 80, Probe.mk "127.0.0.1".data 81]
      { pending := [Probe.mk "127.0.0.1".data 81], holding := none,
        inflight := [Probe.mk "127.0.0.1".data 80], sem := 1,
        launched := [Probe.mk "127.0.0.1".data 80] } :=
    Reachable.step _ _
      (Reachable.step _ _ Reachable.init
        (Step.acquire (Probe.mk "127.0.0.1".data 80) [Probe.mk "127.0.0.1".data 81] _ rfl rfl
          (by decide)))
      (Step.launch (Probe.mk "127.0.0.1".data 80) _ rfl)
  exact ⟨hr, (inflight_le_threads 1 _ _ hr).2.1⟩

/-! ## The claims on the validation of the addresses -/

/-- When the two strings differ, the successor of `ip_start` is a non-empty
string and `ip_start` or `ip_end` is not an IPv4 address, the first range check
ends the process with status 1. -/
theorem createIP4Table_invalid_aborts (parseIPv6 : Str → IP) (fuel : Nat)
    (ip_start ip_end next : Str) (hne : ip_start ≠ ip_end)
    (hnext : nextIP4 ip_start = Outcome.ok next) (hnz : next ≠ [])
    (hbad : To4 (ParseIP parseIPv6 ip_start) = none ∨ To4 (ParseIP parseIPv6 ip_end) = none) :
    createIP4Table parseIPv6 (fuel + 1) ip_start ip_end = some (Outcome.fatal (Fatal.exit 1)) := by
  have hr : isIP4Range parseIPv6 next ip_start ip_end = Outcome.fatal (Fatal.exit 1) := by
    unfold isIP4Range
    rcases hbad with h | h
    · simp [h]
    · by_cases h1 : To4 (ParseIP parseIPv6 next) = none
      · simp [h1]
      · by_cases h2 : To4 (ParseIP parseIPv6 ip_start) = none
        · simp [h2]
        · simp [h, h1, h2]
  simp [createIP4Table, hne, createIP4TableLoop, hnext, hnz, hr]

/-- When the two strings differ and the successor of `ip_start` ends the
process, so does `createIP4Table`. -/
theorem createIP4Table_panic (parseIPv6 : Str → IP) (fuel : Nat)
    (ip_start ip_end : Str) (hne : ip_start ≠ ip_end) (f : Fatal)
    (hnext : nextIP4 ip_start = Outcome.fatal f) :
    createIP4Table parseIPv6 (fuel + 1) ip_start ip_end = some (Outcome.fatal f) := by
  simp [createIP4Table, hne, createIP4TableLoop, hnext]

/-- C9, the failing inputs. For ip_start = 255.255.255.255 and ip_end = x the
end is not an IPv4 address and the strings differ, yet `createIP4Table` returns
the table of the single entry 255.255.255.255: the successor is the empty
string, and the loop returns before any range check. In the same way
ip_start = 255, which is not an IPv4 address, gives the table of the single
entry 255. -/
theorem createIP4Table_sentinel_skips_validation (parseIPv6 : Str → IP) :
    "255.255.255.255".data ≠ "x".data
      ∧ To4 (ParseIP parseIPv6 "x".data) = none
      ∧ createIP4Table parseIPv6 1 "255.255.255.255".data "x".data
          = some (Outcome.ok ["255.255.255.255".data])
      ∧ To4 (ParseIP parseIPv6 "255".data) = none
      ∧ createIP4Table parseIPv6 1 "255".data "10.0.0.1".data
          = some (Outcome.ok ["255".data]) := by
  refine ⟨by decide, rfl, rfl, rfl, rfl⟩

/-- C10, as the claim states it, fails: for start = 1.0.0.1 above
end = 1.0.0.0 the table is the single entry 1.0.0.1, and the session dispatches
the probe of 1.0.0.1 on the port 80. -/
theorem createIP4Table_reversed_scans_start :
    createIP4Table (fun _ => []) 1 "1.0.0.1".data "1.0.0.0".data
        = some (Outcome.ok ["1.0.0.1".data])
      ∧ scanSession (fun _ => []) 1 "1.0.0.1".data "1.0.0.0".data 80 80 (Outcome.ok ())
        = some (Outcome.ok [Probe.mk "1.0.0.1".data 80]) := by
  have h1 : createIP4Table (fun _ => []) 1 "1.0.0.1".data "1.0.0.0".data
        = some (Outcome.ok ["1.0.0.1".data]) := by decide
  have hp : portRange 80 80 = Outcome.ok (80, 80) := by decide
  refine ⟨h1, ?_⟩
  simp only [scanSession, hp, h1, dispatchLoop_eq]
  rfl

/-- C10, amended. For canonical literals of 32-bit values with start above
end, `createIP4Table` returns (with any fuel) the table of the single entry
start; the session does not end there, and with an accepted port range it
dispatches the probes of start. -/
theorem createIP4Table_reversed (parseIPv6 : Str → IP) (a b fuel : Nat) (hba : b < a)
    (ha : a < 4294967296) (hf : 0 < fuel) :
    createIP4Table parseIPv6 fuel (canonical a) (canonical b)
      = some (Outcome.ok [canonical a])
    ∧ ∀ portStart portEnd s e, portRange portStart portEnd = Outcome.ok (s, e) →
        scanSession parseIPv6 fuel (canonical a) (canonical b) portStart portEnd (Outcome.ok ())
          = some (Outcome.ok (dispatchLoop [canonical a] s e)) := by
  have hne : canonical a ≠ canonical b :=
    fun e => absurd (canonical_injective a b ha (by omega) e) (by omega)
  obtain ⟨f, rfl⟩ : ∃ f, fuel = f + 1 := ⟨fuel - 1, by omega⟩
  have ht : createIP4Table parseIPv6 (f + 1) (canonical a) (canonical b)
      = some (Outcome.ok [canonical a]) := by
    by_cases hmax : a = 4294967295
    · subst hmax
      simp [createIP4Table, hne, createIP4TableLoop, nextIP4_canonical_max]
    · have hlt : a < 4294967295 := by omega
      have hr := isIP4Range_canonical parseIPv6 (a + 1) a b (by omega) ha (by omega)
      have hd : decide (a ≤ a + 1 ∧ a + 1 ≤ b) = false := by simp; omega
      rw [hd] at hr
      simp [createIP4Table, hne, createIP4TableLoop, nextIP4_canonical a hlt, canonical_ne_nil, hr]
  refine ⟨ht, ?_⟩
  intro portStart portEnd s e hp
  simp [scanSession, hp, ht]

/-- The table of the reversed range from 1.0.0.1 to 1.0.0.0. -/
theorem createIP4Table_reversed_witness :
    ((16777216 : Nat) < 16777217 ∧ (16777217 : Nat) < 4294967296 ∧ 0 < 1)
      ∧ createIP4Table (fun _ => []) 1 "1.0.0.1".data "1.0.0.0".data
          = some (Outcome.ok ["1.0.0.1".data]) :=
  ⟨by decide,
   (createIP4Table_reversed (fun _ => []) 16777217 16777216 1 (by decide) (by decide)
      (by decide)).1⟩

/-! ## The report of a reachable port: lemmas and claims -/

theorem digitChar_ne_newline : ∀ k : Nat, k < 10 → Nat.digitChar k ≠ '\n' := by decide

theorem toDigitsCore_no_newline (fuel : Nat) :
    ∀ (n : Nat) (ds : List Char), '\n' ∉ ds → '\n' ∉ Nat.toDigitsCore 10 fuel n ds := by
  induction fuel with
  | zero => intro n ds h; simpa [Nat.toDigitsCore] using h
  | succ fuel ih =>
    intro n ds h
    have hd : '\n' ≠ Nat.digitChar (n % 10) :=
      fun e => digitChar_ne_newline (n % 10) (Nat.mod_lt _ (by norm_num)) e.symm
    have hcons : '\n' ∉ Nat.digitChar (n % 10) :: ds := by
      simp only [List.mem_cons, not_or]
      exact ⟨hd, h⟩
    simp only [Nat.toDigitsCore]
    split_ifs
    · exact hcons
    · exact ih _ _ hcons

theorem Itoa_no_newline (v : Int) : '\n' ∉ Itoa v := by
  cases v with
  | ofNat n => exact toDigitsCore_no_newline _ _ _ (by simp)
  | negSucc n =>
    simp only [Itoa, List.mem_cons, not_or]
    exact ⟨by decide, toDigitsCore_no_newline _ _ _ (by simp)⟩

theorem canonical_no_newline (n : Nat) : '\n' ∉ canonical n := by
  simp only [canonical, dotted, Join, List.mem_append, List.mem_cons, not_or]
  exact ⟨Itoa_no_newline _, by decide, Itoa_no_newline _, by decide, Itoa_no_newline _, by decide,
    Itoa_no_newline _⟩

theorem lineCount_padLeft (width : Nat) (s : Str) : lineCount (padLeft width s) = lineCount s := by
  simp [lineCount, padLeft, List.count_replicate]

theorem lineCount_reportLine (p : Int) (address description : Str) :
    lineCount (reportLine p address description)
      = lineCount (Itoa p) + lineCount address + lineCount description + 1 := by
  have h := lineCount_padLeft
  simp only [lineCount] at h
  simp [lineCount, reportLine, List.count_append, List.count_cons, h]
  omega

theorem lineCount_eq_zero (s : Str) (h : '\n' ∉ s) : lineCount s = 0 :=
  List.count_eq_zero.2 h

theorem lookup_mem (p : Int) (d : String) :
    ∀ table : List (Int × String), table.lookup p = some d → (p, d) ∈ table := by
  intro table
  induction table with
  | nil => intro h; simp at h
  | cons e rest ih =>
    intro h
    obtain ⟨k, v⟩ := e
    by_cases hk : p = k
    · subst hk
      simp [List.lookup] at h
      simp [h]
    · have hb : (p == k) = false := by simpa using hk
      simp only [List.lookup, hb] at h
      exact List.mem_cons_of_mem _ (ih h)

theorem mapPortDescriptions_one_line :
    ∀ entry ∈ mapPortDescriptions, entry.1 ∈ twoLinePorts ∨ '\n' ∉ entry.2.data := by
  set_option maxRecDepth 1000000 in decide

theorem mapPortDescriptions_two_lines :
    ∀ entry ∈ mapPortDescriptions, entry.1 ∈ twoLinePorts → entry.2.data.count '\n' = 1 := by
  set_option maxRecDepth 1000000 in decide

theorem twoLinePorts_lookup :
    ∀ p ∈ twoLinePorts, (mapPortDescriptions.lookup p).isSome = true := by
  set_option maxRecDepth 1000000 in decide

theorem lineCount_portDescription (p : Int) :
    lineCount (portDescription p) = if p ∈ twoLinePorts then 1 else 0 := by
  unfold portDescription
  cases hl : mapPortDescriptions.lookup p with
  | none =>
    have hp : p ∉ twoLinePorts := by
      intro hp
      have := twoLinePorts_lookup p hp
      rw [hl] at this
      simp at this
    simp [hp, lineCount]
  | some d =>
    have hm := lookup_mem p d _ hl
    by_cases hp : p ∈ twoLinePorts
    · have := mapPortDescriptions_two_lines _ hm hp
      simpa [hp, lineCount] using this
    · rcases mapPortDescriptions_one_line _ hm with h | h
      · exact absurd h hp
      · simpa [hp] using lineCount_eq_zero _ h

theorem IPString_IPv4 (otherString : IP → Str) (a b c d : Nat) :
    IPString otherString (IPv4 a b c d) = dotted a b c d := by
  simp [IPString, IPv4, To4]

theorem IPString_canonical (parseIPv6 : Str → IP) (otherString : IP → Str) (n : Nat) :
    IPString otherString (New parseIPv6 (canonical n)).ip = canonical n := by
  show IPString otherString (ParseIP parseIPv6 (canonical n)) = canonical n
  rw [ParseIP_canonical, IPString_IPv4]
  rfl

theorem infix_padLeft (width : Nat) (s : Str) : s <:+: padLeft width s :=
  (List.suffix_append _ _).isInfix

theorem infix_reportLine (p : Int) (address description : Str) :
    Itoa p <:+: reportLine p address description
      ∧ address <:+: reportLine p address description
      ∧ description <:+: reportLine p address description := by
  unfold reportLine
  refine ⟨?_, ?_, ?_⟩
  · exact (infix_padLeft 9 (Itoa p)).trans (List.prefix_append _ _).isInfix
  · refine List.IsInfix.trans ?_ (List.suffix_append _ _).isInfix
    refine List.IsInfix.trans ?_ (List.suffix_cons _ _).isInfix
    exact (infix_padLeft 10 address).trans (List.prefix_append _ _).isInfix
  · refine List.IsInfix.trans ?_ (List.suffix_append _ _).isInfix
    refine List.IsInfix.trans ?_ (List.suffix_cons _ _).isInfix
    refine List.IsInfix.trans ?_ (List.suffix_append _ _).isInfix
    refine List.IsInfix.trans ?_ (List.suffix_cons _ _).isInfix
    exact (infix_padLeft 45 description).trans (List.prefix_append _ _).isInfix

/-- C11, as the claim states it, fails: the report of the reachable port 512
of 127.0.0.1 has two lines, because the description of 512 holds a line break;
and the report of a reachable port of the host name localhost shows `<nil>`
in the place of the address and does not contain the name of the target. -/
theorem probeOutput_two_lines_and_nil :
    lineCount (probeOutput (fun _ => []) (fun _ _ => true)
        (New (fun _ => []) "127.0.0.1".data) 512) = 2
      ∧ probeOutput (fun _ => []) (fun _ _ => true) (New (fun _ => []) "localhost".data) 81
          = "       81      <nil>                                              \n".data
      ∧ ¬ ("localhost".data <:+:
          probeOutput (fun _ => []) (fun _ _ => true) (New (fun _ => []) "localhost".data) 81) := by
  set_option maxRecDepth 1000000 in decide

/-- C11, amended. For the canonical literal of an IPv4 address as target and
every port `p`, the goroutine writes the text of one `Printf` when the
connection succeeds and nothing when it fails. The text contains the port
number, the address of the target and the description looked up for `p` (the
empty string when `p` is not a key of the map); it is one line, except for the
ports 512, 513, 514, 520, 2430, 2431 and 2433, where the description holds a
line break and the text is two lines. -/
theorem probeOutput_report (parseIPv6 : Str → IP) (otherString : IP → Str)
    (connect : Scanner → Int → Bool) (n : Nat) (p : Int) :
    probeOutput otherString connect (New parseIPv6 (canonical n)) p
        = (if connect (New parseIPv6 (canonical n)) p then
            reportLine p (canonical n) (portDescription p) else [])
      ∧ Itoa p <:+: reportLine p (canonical n) (portDescription p)
      ∧ canonical n <:+: reportLine p (canonical n) (portDescription p)
      ∧ portDescription p <:+: reportLine p (canonical n) (portDescription p)
      ∧ (mapPortDescriptions.lookup p = none → portDescription p = [])
      ∧ lineCount (reportLine p (canonical n) (portDescription p))
          = (if p ∈ twoLinePorts then 2 else 1)
      ∧ lineCount ([] : Str) = 0 := by
  obtain ⟨h1, h2, h3⟩ := infix_reportLine p (canonical n) (portDescription p)
  refine ⟨?_, h1, h2, h3, ?_, ?_, rfl⟩
  · simp only [probeOutput, IPString_canonical]
  · intro h
    simp [portDescription, h]
  · rw [lineCount_reportLine, lineCount_eq_zero _ (Itoa_no_newline p),
      lineCount_eq_zero _ (canonical_no_newline n), lineCount_portDescription]
    split_ifs <;> rfl

/-- The report of the port 80 of 127.0.0.1, reachable and not reachable. -/
theorem probeOutput_report_witness :
    probeOutput (fun _ => []) (fun _ _ => true) (New (fun _ => []) "127.0.0.1".data) 80
        = "       80  127.0.0.1 (http) HyperText Transfer Protocol (HTTP) for World Wide Web (WWW) services\n".data
      ∧ probeOutput (fun _ => []) (fun _ _ => false) (New (fun _ => []) "127.0.0.1".data) 80
        = [] :=
  ⟨(probeOutput_report (fun _ => []) (fun _ => []) (fun _ _ => true) 2130706433 80).1,
   (probeOutput_report (fun _ => []) (fun _ => []) (fun _ _ => false) 2130706433 80).1⟩

/-- C12, the failing input. The ports 443:80 are rejected before any scanning,
and the process ends with the exit status 0; every rejection of a port range
ends with the exit status 0. -/
theorem portRange_rejection_exits_zero :
    portRange 443 80 = Outcome.fatal (Fatal.exit 0)
      ∧ scanSession (fun _ => []) 1 "127.0.0.1".data "127.0.0.1".data 443 80 (Outcome.ok ())
          = some (Outcome.fatal (Fatal.exit 0))
      ∧ (∀ (portStart portEnd : Int) (f : Fatal),
          portRange portStart portEnd = Outcome.fatal f → f = Fatal.exit 0) := by
  have hp : portRange 443 80 = Outcome.fatal (Fatal.exit 0) := by decide
  refine ⟨hp, by simp [scanSession, hp], ?_⟩
  intro portStart portEnd f h
  rw [portRange_eq] at h
  split_ifs at h
  exact (Outcome.fatal.inj h).symm

/-- C13. Once the two clamps have run and the check end < start has passed,
1 ≤ start ≤ end ≤ 65536 holds, the condition of the second rejection is false,
and the range is accepted. -/
theorem portRange_second_rejection_unreachable (portStart portEnd : Int)
    (h : ¬ clampPortEnd portEnd < clampPortStart portStart) :
    (1 ≤ clampPortStart portStart ∧ clampPortStart portStart ≤ clampPortEnd portEnd
        ∧ clampPortEnd portEnd ≤ 65536)
      ∧ ¬ portOutOfBounds (clampPortStart portStart) (clampPortEnd portEnd)
      ∧ portRange portStart portEnd
          = Outcome.ok (clampPortStart portStart, clampPortEnd portEnd) := by
  have hs := clampPortStart_ge portStart
  have he := clampPortEnd_bounds portEnd
  refine ⟨⟨hs, by omega, he.2⟩, ?_, ?_⟩
  · unfold portOutOfBounds
    omega
  · rw [portRange_eq, if_neg h]

/-- The inputs -3 and 70000, both clamped, pass the first check. -/
theorem portRange_second_rejection_unreachable_witness :
    ¬ (clampPortEnd 70000 < clampPortStart (-3))
      ∧ ¬ portOutOfBounds (clampPortStart (-3)) (clampPortEnd 70000)
      ∧ portRange (-3) 70000 = Outcome.ok (1, 65536) :=
  ⟨by decide, (portRange_second_rejection_unreachable (-3) 70000 (by decide)).2⟩

end Netscan
